import Mathlib

/-!
Verification development for the transaction/message-call executor of
cpp-ethereum (libethereum/Executive.h).

The repository ships the class declaration in Executive.h; the inline member
functions (constructor, initialize byte overload, t, logs, gas, newAddress,
excepted, collectResult) are embedded directly from that header.  The out of
line member bodies (initialize on a Transaction, execute, finalize, call,
create, go, gasUsed) are not in the repository sources, so they are modelled
from the specification (spec.md sections 4 and 6-8), as noted on each
definition.

Machine integers: balances, gas and addresses are u256/h160 in the source;
the spec mandates wide overflow-safe arithmetic for every quantity the
claims touch, so they are embedded as Nat.
-/

/-- Exception tags of the executor, from the spec data model: exactly one tag
is authoritative per execution.  DepthExceeded is the dedicated tag the spec
requires for call-depth rejection. -/
inductive TransactionException where
  | None
  | InvalidSignature
  | InvalidNonce
  | NotEnoughCash
  | BlockGasLimitReached
  | OutOfGasIntrinsic
  | OutOfGasBase
  | OutOfGas
  | BadInstruction
  | BadJumpDestination
  | StackUnderflow
  | StackOverflow
  | RevertInstruction
  | InvalidAddress
  | DepthExceeded
deriving DecidableEq, Repr

/-- Check mode passed to the external Transaction constructor, mirroring the
CheckTransaction enumeration referenced by Executive.h line 74. -/
inductive CheckTransaction where
  | None
  | Cheap
  | Everything
deriving DecidableEq, Repr

/-- A parsed transaction, from the spec data model: sender, recipient
(ignored when the creation flag is set), nonce, gas limit, gas price, value,
payload bytes, creation flag. -/
structure Transaction where
  sender : Nat
  receiveAddress : Nat
  isCreation : Bool
  nonce : Nat
  gas : Nat
  gasPrice : Nat
  value : Nat
  data : List Nat
deriving DecidableEq, Repr

/-- A log entry: address, topic words, data bytes. -/
structure LogEntry where
  address : Nat
  topics : List Nat
  data : List Nat
deriving DecidableEq, Repr

/-- Substate accumulated during one execution: self-destruct set, log
sequence, refund counter. -/
structure SubState where
  suicides : List Nat
  logs : List LogEntry
  refunds : Nat
deriving DecidableEq, Repr

/-- One account record of the ledger: balance, nonce, code, storage. -/
structure Account where
  balance : Nat
  nonce : Nat
  code : List Nat
  storage : Nat → Nat

/-- The account-state ledger, a total map from addresses to accounts
(absent accounts are the all-zero account). -/
abbrev Ledger := Nat → Account

def emptyAccount : Account :=
  { balance := 0, nonce := 0, code := [], storage := fun _ => 0 }

def Ledger.getBalance (l : Ledger) (a : Nat) : Nat := (l a).balance

def Ledger.getNonce (l : Ledger) (a : Nat) : Nat := (l a).nonce

def Ledger.getCode (l : Ledger) (a : Nat) : List Nat := (l a).code

def Ledger.addBalance (l : Ledger) (a v : Nat) : Ledger :=
  fun x => if x = a then { l x with balance := (l x).balance + v } else l x

def Ledger.subBalance (l : Ledger) (a v : Nat) : Ledger :=
  fun x => if x = a then { l x with balance := (l x).balance - v } else l x

def Ledger.incNonce (l : Ledger) (a : Nat) : Ledger :=
  fun x => if x = a then { l x with nonce := (l x).nonce + 1 } else l x

def Ledger.setCode (l : Ledger) (a : Nat) (c : List Nat) : Ledger :=
  fun x => if x = a then { l x with code := c } else l x

def Ledger.kill (l : Ledger) (a : Nat) : Ledger :=
  fun x => if x = a then emptyAccount else l x

/-- Gas cost constants of the cost model (spec section 4.1: base cost,
per-zero-byte cost, per-nonzero-byte cost, creation surcharge, per-byte
deposit cost, call-depth limit). -/
def c_txGas : Nat := 21000

def c_txDataZeroGas : Nat := 4

def c_txDataNonZeroGas : Nat := 68

def c_txCreateGas : Nat := 32000

def c_createDataGas : Nat := 200

def c_depthLimit : Nat := 1024

/-- Modelled from the spec: payload portion of the intrinsic gas, a
per-zero-byte plus per-nonzero-byte sum (spec section 4.1). -/
def dataGas (d : List Nat) : Nat :=
  d.foldl (fun acc b => acc + if b = 0 then c_txDataZeroGas else c_txDataNonZeroGas) 0

/-- Modelled from the spec: intrinsicGas(transaction), missing from the
sources together with the rest of the cost model; base cost plus payload
cost plus the contract-creation surcharge (spec section 4.1). -/
def intrinsicGas (t : Transaction) : Nat :=
  c_txGas + dataGas t.data + (if t.isCreation then c_txCreateGas else 0)

/-- The externality adapter handed to the interpreter (ExtVM in the source,
declared but not defined under src).  origLedger is the revert snapshot the
spec rollback contract requires: the ledger as of adapter construction,
before the value transfer of call/create. -/
structure VMContext where
  myAddress : Nat
  caller : Nat
  origin : Nat
  value : Nat
  gasPrice : Nat
  data : List Nat
  code : List Nat
  origLedger : Ledger

/-- Outcome of one interpreter run (spec section 6): remaining gas, output
bytes, exception tag, accumulated substate, mutated ledger, and the
instruction steps taken (observed by the tracing callback only). -/
structure VMOutcome where
  gasRemaining : Nat
  output : List Nat
  exception : TransactionException
  sub : SubState
  ledger : Ledger
  steps : List Nat

/-- The interpreter interface of spec section 6:
run(gasBudget, codeBytes, inputBytes, ledger) to an outcome. -/
abbrev Interp := Nat → List Nat → List Nat → Ledger → VMOutcome

/-- The per-instruction tracing callback type (OnOpFunc in the source):
maps an observed step to a trace record. -/
abbrev OnOpFunc := Nat → Nat

/-- The Executive state, mirroring the private fields of Executive.h lines
120-138.  The ledger reference m_s is embedded by value (state passing);
the result-sink pointer m_res is embedded as an optional sink identifier;
m_sub and m_out hold the substate and output the source keeps inside
m_ext/ExtVM, and m_trace the records produced by the tracing callback. -/
structure Executive where
  m_s : Ledger
  m_lastHashes : List Nat
  m_ext : Option VMContext
  m_res : Option Nat
  m_newAddress : Nat
  m_depth : Nat
  m_isCreation : Bool
  m_excepted : TransactionException
  m_gas : Nat
  m_t : Transaction
  m_logs : List LogEntry
  m_sub : SubState
  m_out : List Nat
  m_trace : List Nat
  m_gasRequired : Nat
  m_gasCost : Nat
  m_totalCost : Nat

/-- The default-constructed transaction held by a fresh Executive. -/
def emptyTransaction : Transaction :=
  { sender := 0, receiveAddress := 0, isCreation := false, nonce := 0,
    gas := 0, gasPrice := 0, value := 0, data := [] }

/-- The basic constructor, Executive.h line 64: binds the ledger, the last
hashes and the call depth; every other field takes its declared member
initializer (lines 123-131). -/
def Executive.construct (s : Ledger) (lh : List Nat) (level : Nat) : Executive :=
  { m_s := s, m_lastHashes := lh, m_ext := none, m_res := none,
    m_newAddress := 0, m_depth := level, m_isCreation := false,
    m_excepted := TransactionException.None, m_gas := 0,
    m_t := emptyTransaction, m_logs := [], m_sub := { suicides := [], logs := [], refunds := 0 },
    m_out := [], m_trace := [], m_gasRequired := 0, m_gasCost := 0, m_totalCost := 0 }

/-- Getter t(), Executive.h line 84. -/
def Executive.t (e : Executive) : Transaction := e.m_t

/-- Getter logs(), Executive.h line 87. -/
def Executive.logs (e : Executive) : List LogEntry := e.m_logs

/-- Getter gas(), Executive.h line 110. -/
def Executive.gas (e : Executive) : Nat := e.m_gas

/-- Getter newAddress(), Executive.h line 113. -/
def Executive.newAddress (e : Executive) : Nat := e.m_newAddress

/-- excepted(), Executive.h line 115: true iff m_excepted is not None. -/
def Executive.excepted (e : Executive) : Bool :=
  e.m_excepted ≠ TransactionException.None

/-- collectResult(sink), Executive.h line 118: records the address of the
supplied sink in m_res and touches nothing else. -/
def Executive.collectResult (e : Executive) (sink : Nat) : Executive :=
  { e with m_res := some sink }

/-- Modelled from the spec: gasUsed(), declared on Executive.h line 90 with
its body missing from the sources; spec section 4.2 fixes it as
gasLimit minus remaining gas. -/
def Executive.gasUsed (e : Executive) : Nat := e.m_t.gas - e.m_gas

/-- Modelled from the spec: the deterministic new-contract address scheme
(sender address and sender nonce fed to an external hash in the source,
spec section 4.2); the hash is external, so it is embedded as an injective
pairing of sender and nonce. -/
def newContractAddress (sender nonce : Nat) : Nat := Nat.pair sender nonce

/-- Modelled from the spec: Executive::initialize(Transaction const&),
declared on Executive.h line 75 with its body missing from the sources.
Spec sections 4.1-4.2: validates the gas envelope and nonce against the
ledger view, fails by recording an exception tag (never throwing), performs
no balance deduction, and increments the sender nonce on success.  The
checks are ordered so that the intrinsic-gas check comes first, as the
testable property of spec section 8 requires OutOfGasIntrinsic whenever
gasLimit is below the intrinsic cost. -/
def Executive.initializeTx (e : Executive) (t : Transaction) : Executive :=
  let gasReq := intrinsicGas t
  let gasCost := t.gas * t.gasPrice
  let totalCost := gasCost + t.value
  if t.gas < gasReq then
    { e with m_t := t, m_excepted := TransactionException.OutOfGasIntrinsic }
  else if e.m_s.getNonce t.sender ≠ t.nonce then
    { e with m_t := t, m_excepted := TransactionException.InvalidNonce }
  else if e.m_s.getBalance t.sender < totalCost then
    { e with m_t := t, m_excepted := TransactionException.NotEnoughCash }
  else
    { e with m_t := t, m_s := e.m_s.incNonce t.sender,
             m_gasRequired := gasReq, m_gasCost := gasCost, m_totalCost := totalCost }

/-- The byte-level initialize overload, Executive.h line 74: parses the
transaction with CheckTransaction::None and delegates to the Transaction
overload.  The wire decoder is an external collaborator (spec section 6),
so it is a parameter. -/
def Executive.initializeBytes (e : Executive)
    (decode : List Nat → CheckTransaction → Transaction) (b : List Nat) : Executive :=
  e.initializeTx (decode b CheckTransaction.None)

/-- Modelled from the spec: the bare CALL path, Executive.h line 97 with
its body missing from the sources.  Spec section 4.3: builds the adapter
when the receiver has code (snapshotting the ledger before the transfer,
per the rollback contract of section 4.2), transfers value from sender to
receiver, and returns true iff no interpreter run is needed. -/
def Executive.call (e : Executive) (receiveAddress txSender txValue gasPrice : Nat)
    (txData : List Nat) (g : Nat) : Bool × Executive :=
  let code := e.m_s.getCode receiveAddress
  let ext : Option VMContext :=
    if code = [] then none
    else some { myAddress := receiveAddress, caller := txSender, origin := txSender,
                value := txValue, gasPrice := gasPrice, data := txData,
                code := code, origLedger := e.m_s }
  let s1 := (e.m_s.subBalance txSender txValue).addBalance receiveAddress txValue
  (ext.isNone,
   { e with m_isCreation := false, m_gas := g, m_ext := ext, m_s := s1 })

/-- Modelled from the spec: the bare CREATE path, Executive.h line 94 with
its body missing from the sources.  Spec section 4.3: computes the new
address, transfers the endowment from sender to it, then fails closed with
the depth-exceeded tag when the depth limit is hit (transfer-then-fail);
otherwise returns false iff the init code must run, snapshotting the ledger
before the transfer for the rollback contract. -/
def Executive.create (e : Executive) (txSender endowment gasPrice g : Nat)
    (initCode : List Nat) (origin : Nat) : Bool × Executive :=
  let na := newContractAddress txSender (e.m_s.getNonce txSender)
  let s1 := (e.m_s.subBalance txSender endowment).addBalance na endowment
  let e1 : Executive :=
    { e with m_isCreation := true, m_newAddress := na, m_gas := g, m_s := s1 }
  if c_depthLimit ≤ e.m_depth then
    (true, { e1 with m_excepted := TransactionException.DepthExceeded })
  else if initCode = [] then
    (true, e1)
  else
    (false, { e1 with m_ext := some { myAddress := na, caller := txSender, origin := origin,
                                      value := endowment, gasPrice := gasPrice, data := [],
                                      code := initCode, origLedger := e.m_s } })

/-- Modelled from the spec: Executive::execute(), Executive.h line 81 with
its body missing from the sources.  Spec section 4.2: deducts the full gas
cost from the sender, consumes the intrinsic gas from the budget, and
dispatches to create or call; returns true iff no interpreter run is
needed. -/
def Executive.execute (e : Executive) : Bool × Executive :=
  let e1 : Executive := { e with m_s := e.m_s.subBalance e.m_t.sender e.m_gasCost }
  let g := e.m_t.gas - e.m_gasRequired
  if e.m_t.isCreation then
    e1.create e.m_t.sender e.m_t.value e.m_t.gasPrice g e.m_t.data e.m_t.sender
  else
    e1.call e.m_t.receiveAddress e.m_t.sender e.m_t.value e.m_t.gasPrice e.m_t.data g

/-- Modelled from the spec: Executive::go(onStep), Executive.h line 104
with its body missing from the sources.  Spec sections 4.2 and 5: runs the
interpreter (itself external, hence a parameter) over the prepared context;
records remaining gas, substate, output and ledger on success, charging the
per-byte deposit for a creation and turning an unaffordable deposit into a
retroactive OutOfGas; on any exception consumes all gas, reverts the ledger
to the adapter snapshot and discards the substate, keeping output bytes
only for RevertInstruction.  The tracing callback feeds the trace only:
spec section 5 forbids it from mutating execution state. -/
def Executive.go (e : Executive) (vm : Interp) (onOp : OnOpFunc) : Executive :=
  match e.m_ext with
  | none => e
  | some ctx =>
    let r := vm e.m_gas ctx.code ctx.data e.m_s
    let tr := r.steps.map onOp
    if r.exception = TransactionException.None then
      if e.m_isCreation then
        let depositGas := c_createDataGas * r.output.length
        if r.gasRemaining < depositGas then
          { e with m_excepted := TransactionException.OutOfGas, m_gas := 0,
                   m_s := ctx.origLedger, m_out := [], m_trace := tr }
        else
          { e with m_gas := r.gasRemaining - depositGas,
                   m_s := r.ledger.setCode e.m_newAddress r.output,
                   m_sub := r.sub, m_out := r.output, m_trace := tr }
      else
        { e with m_gas := r.gasRemaining, m_s := r.ledger, m_sub := r.sub,
                 m_out := r.output, m_trace := tr }
    else
      { e with m_excepted := r.exception, m_gas := 0, m_s := ctx.origLedger,
               m_sub := { suicides := [], logs := [], refunds := 0 },
               m_out := if r.exception = TransactionException.RevertInstruction
                        then r.output else [],
               m_trace := tr }

/-- Modelled from the spec: Executive::finalize(), Executive.h line 78 with
its body missing from the sources.  Spec section 4.2: on success, adds
min(refund counter, gasUsed / 2) back to remaining gas, refunds unused gas
to the sender, pays the consumed-gas fee to the block beneficiary, applies
scheduled self-destructs and publishes the logs; on exception, discards the
substate entirely (logs empty), refunds whatever gas remains and pays the
fee, never reverting the nonce increment or the fee transfer. -/
def Executive.finalize (e : Executive) (beneficiary : Nat) : Executive :=
  if e.m_excepted = TransactionException.None then
    let gasUsedPre := e.m_t.gas - e.m_gas
    let refund := min e.m_sub.refunds (gasUsedPre / 2)
    let g := e.m_gas + refund
    let s1 := e.m_s.addBalance e.m_t.sender (g * e.m_t.gasPrice)
    let s2 := s1.addBalance beneficiary ((e.m_t.gas - g) * e.m_t.gasPrice)
    let s3 := e.m_sub.suicides.foldl (fun l a => Ledger.kill l a) s2
    { e with m_s := s3, m_gas := g, m_logs := e.m_sub.logs }
  else
    let s1 := e.m_s.addBalance e.m_t.sender (e.m_gas * e.m_t.gasPrice)
    let s2 := s1.addBalance beneficiary ((e.m_t.gas - e.m_gas) * e.m_t.gasPrice)
    { e with m_s := s2, m_logs := [] }

/-- Modelled from the spec: Executive::accrueSubState(parent), Executive.h
line 100 with its body missing from the sources; merges this operation
substate into the parent context (spec section 4.3). -/
def Executive.accrueSubState (e : Executive) (parent : SubState) : SubState :=
  { suicides := parent.suicides ++ e.m_sub.suicides,
    logs := parent.logs ++ e.m_sub.logs,
    refunds := parent.refunds + e.m_sub.refunds }

/-! Pointwise lemmas about the ledger operations. -/

theorem Ledger.addBalance_apply_ne (l : Ledger) (a v x : Nat) (h : x ≠ a) :
    l.addBalance a v x = l x := by
  simp [Ledger.addBalance, h]

theorem Ledger.addBalance_getBalance_same (l : Ledger) (a v : Nat) :
    (l.addBalance a v).getBalance a = l.getBalance a + v := by
  simp [Ledger.addBalance, Ledger.getBalance]

theorem Ledger.subBalance_apply_ne (l : Ledger) (a v x : Nat) (h : x ≠ a) :
    l.subBalance a v x = l x := by
  simp [Ledger.subBalance, h]

theorem Ledger.subBalance_getBalance_same (l : Ledger) (a v : Nat) :
    (l.subBalance a v).getBalance a = l.getBalance a - v := by
  simp [Ledger.subBalance, Ledger.getBalance]

theorem Ledger.addBalance_nonce (l : Ledger) (a v x : Nat) :
    (l.addBalance a v x).nonce = (l x).nonce := by
  by_cases h : x = a <;> simp [Ledger.addBalance, h]

theorem Ledger.subBalance_nonce (l : Ledger) (a v x : Nat) :
    (l.subBalance a v x).nonce = (l x).nonce := by
  by_cases h : x = a <;> simp [Ledger.subBalance, h]

theorem Ledger.addBalance_code (l : Ledger) (a v x : Nat) :
    (l.addBalance a v x).code = (l x).code := by
  by_cases h : x = a <;> simp [Ledger.addBalance, h]

theorem Ledger.subBalance_code (l : Ledger) (a v x : Nat) :
    (l.subBalance a v x).code = (l x).code := by
  by_cases h : x = a <;> simp [Ledger.subBalance, h]

theorem Ledger.incNonce_code (l : Ledger) (a x : Nat) :
    (l.incNonce a x).code = (l x).code := by
  by_cases h : x = a <;> simp [Ledger.incNonce, h]

theorem Ledger.incNonce_balance (l : Ledger) (a x : Nat) :
    (l.incNonce a x).balance = (l x).balance := by
  by_cases h : x = a <;> simp [Ledger.incNonce, h]

theorem Ledger.addBalance_zero (l : Ledger) (a : Nat) :
    l.addBalance a 0 = l := by
  funext x
  by_cases h : x = a <;> simp [Ledger.addBalance, h]

/-- C7: for every Executive at any point in its lifecycle, excepted()
returns true exactly when the recorded TransactionException tag differs
from None (Executive.h line 115), so it is false whenever no exception has
been recorded in the single authoritative tag field. -/
theorem Executive.excepted_iff_tag (e : Executive) :
    (e.excepted = true ↔ e.m_excepted ≠ TransactionException.None) ∧
    (e.m_excepted = TransactionException.None → e.excepted = false) := by
  constructor
  · simp [Executive.excepted]
  · intro h
    simp [Executive.excepted, h]

/-- C8: a freshly constructed Executive (Executive.h lines 64 and 123-131)
has zero gas, no exception, the empty new address, no registered result
sink, a cleared creation flag, and the given call depth; the depth defaults
to zero when the level argument is omitted. -/
theorem Executive.construct_initial_state (s : Ledger) (lh : List Nat) (level : Nat) :
    (Executive.construct s lh level).gas = 0 ∧
    (Executive.construct s lh level).excepted = false ∧
    (Executive.construct s lh level).newAddress = 0 ∧
    (Executive.construct s lh level).m_res = none ∧
    (Executive.construct s lh level).m_isCreation = false ∧
    (Executive.construct s lh level).m_depth = level ∧
    (Executive.construct s lh 0).m_depth = 0 := by
  refine ⟨rfl, ?_, rfl, rfl, rfl, rfl, rfl⟩
  simp [Executive.construct, Executive.excepted]

/-- C9: the byte-level initialize overload (Executive.h line 74) is exactly
initialize applied to the transaction decoded with CheckTransaction::None:
it performs no signature or validity checking of its own and delegates to
the Transaction overload. -/
theorem Executive.initializeBytes_delegates
    (decode : List Nat → CheckTransaction → Transaction) (e : Executive) (b : List Nat) :
    e.initializeBytes decode b = e.initializeTx (decode b CheckTransaction.None) := rfl

/-- C10: collectResult (Executive.h line 118) only records the supplied
sink in m_res: gas(), excepted(), newAddress(), the logs, the depth, the
ledger and every other field are unchanged, and a second call replaces the
previously registered sink. -/
theorem Executive.collectResult_frame (e : Executive) (r1 r2 : Nat) :
    (e.collectResult r1).m_res = some r1 ∧
    ((e.collectResult r1).collectResult r2).m_res = some r2 ∧
    (e.collectResult r1).gas = e.gas ∧
    (e.collectResult r1).excepted = e.excepted ∧
    (e.collectResult r1).newAddress = e.newAddress ∧
    (e.collectResult r1).logs = e.logs ∧
    (e.collectResult r1).m_depth = e.m_depth ∧
    (e.collectResult r1).m_s = e.m_s ∧
    (e.collectResult r1).m_lastHashes = e.m_lastHashes ∧
    (e.collectResult r1).m_ext = e.m_ext ∧
    (e.collectResult r1).m_newAddress = e.m_newAddress ∧
    (e.collectResult r1).m_isCreation = e.m_isCreation ∧
    (e.collectResult r1).m_excepted = e.m_excepted ∧
    (e.collectResult r1).m_gas = e.m_gas ∧
    (e.collectResult r1).m_t = e.m_t ∧
    (e.collectResult r1).m_logs = e.m_logs ∧
    (e.collectResult r1).m_sub = e.m_sub ∧
    (e.collectResult r1).m_out = e.m_out ∧
    (e.collectResult r1).m_trace = e.m_trace ∧
    (e.collectResult r1).m_gasRequired = e.m_gasRequired ∧
    (e.collectResult r1).m_gasCost = e.m_gasCost ∧
    (e.collectResult r1).m_totalCost = e.m_totalCost := by
  refine ⟨rfl, rfl, rfl, rfl, rfl, rfl, rfl, rfl, rfl, rfl, rfl,
          rfl, rfl, rfl, rfl, rfl, rfl, rfl, rfl, rfl, rfl, rfl⟩

/-- C3: whenever the gas limit is below the intrinsic gas, initialize
records the OutOfGasIntrinsic tag (returning normally, never throwing) and
leaves the ledger untouched. -/
theorem Executive.initialize_intrinsic_gas_fail (e : Executive) (t : Transaction)
    (h : t.gas < intrinsicGas t) :
    (e.initializeTx t).m_excepted = TransactionException.OutOfGasIntrinsic ∧
    (e.initializeTx t).m_s = e.m_s := by
  unfold Executive.initializeTx
  simp [h]

/-- The all-empty ledger used by concrete evaluations. -/
def wLedger0 : Ledger := fun _ => emptyAccount

/-- A concrete transaction whose gas limit is below its intrinsic gas. -/
def wTxLowGas : Transaction :=
  { sender := 1, receiveAddress := 2, isCreation := false, nonce := 0,
    gas := 20000, gasPrice := 1, value := 0, data := [] }

theorem Executive.initialize_intrinsic_gas_fail_witness :
    wTxLowGas.gas < intrinsicGas wTxLowGas ∧
    (((Executive.construct wLedger0 [] 0).initializeTx wTxLowGas).m_excepted =
        TransactionException.OutOfGasIntrinsic ∧
      ((Executive.construct wLedger0 [] 0).initializeTx wTxLowGas).m_s =
        (Executive.construct wLedger0 [] 0).m_s) :=
  ⟨by decide,
   Executive.initialize_intrinsic_gas_fail (Executive.construct wLedger0 [] 0)
     wTxLowGas (by decide)⟩

/-- C2: on an exception-free execution, finalize leaves gasUsed equal to
the gas limit minus the remaining gas after refund, and the refund added
back to remaining gas is the minimum of the accumulated refund counter and
half the gas used before the refund. -/
theorem Executive.finalize_gas_accounting (e : Executive) (beneficiary : Nat)
    (h : e.m_excepted = TransactionException.None) :
    (e.finalize beneficiary).gasUsed = e.m_t.gas - (e.finalize beneficiary).m_gas ∧
    (e.finalize beneficiary).m_gas =
      e.m_gas + min e.m_sub.refunds ((e.m_t.gas - e.m_gas) / 2) := by
  unfold Executive.finalize
  simp [h, Executive.gasUsed]

/-- A concrete exception-free post-execution Executive for evaluating
finalize: gas limit 30000, remaining gas 5000, refund counter 100. -/
def wExecFin : Executive :=
  { Executive.construct wLedger0 [] 0 with
    m_t := { sender := 1, receiveAddress := 2, isCreation := false, nonce := 0,
             gas := 30000, gasPrice := 1, value := 0, data := [] },
    m_gas := 5000,
    m_sub := { suicides := [], logs := [], refunds := 100 } }

theorem Executive.finalize_gas_accounting_witness :
    wExecFin.m_excepted = TransactionException.None ∧
    ((wExecFin.finalize 7).gasUsed = wExecFin.m_t.gas - (wExecFin.finalize 7).m_gas ∧
      (wExecFin.finalize 7).m_gas =
        wExecFin.m_gas + min wExecFin.m_sub.refunds ((wExecFin.m_t.gas - wExecFin.m_gas) / 2)) :=
  ⟨by decide, Executive.finalize_gas_accounting wExecFin 7 (by decide)⟩

/-- C4: a bare create at or beyond the depth limit fails closed with the
depth-exceeded tag (create returns normally, reporting done), yet the
endowment has already moved from the sender to the computed new address
when the failure is reported. -/
theorem Executive.create_depth_limit_transfer_then_fail (e : Executive)
    (txSender endowment gasPrice g : Nat) (initCode : List Nat) (origin : Nat)
    (hdepth : c_depthLimit ≤ e.m_depth)
    (hne : txSender ≠ newContractAddress txSender (e.m_s.getNonce txSender)) :
    (e.create txSender endowment gasPrice g initCode origin).1 = true ∧
    (e.create txSender endowment gasPrice g initCode origin).2.m_excepted =
      TransactionException.DepthExceeded ∧
    (e.create txSender endowment gasPrice g initCode origin).2.m_s.getBalance
        (newContractAddress txSender (e.m_s.getNonce txSender)) =
      e.m_s.getBalance (newContractAddress txSender (e.m_s.getNonce txSender)) + endowment ∧
    (e.create txSender endowment gasPrice g initCode origin).2.m_s.getBalance txSender =
      e.m_s.getBalance txSender - endowment := by
  unfold Executive.create
  simp only [if_pos hdepth]
  refine ⟨by trivial, by trivial, ?_, ?_⟩
  · rw [Ledger.addBalance_getBalance_same]
    have h2 : newContractAddress txSender (e.m_s.getNonce txSender) ≠ txSender := Ne.symm hne
    unfold Ledger.getBalance
    rw [Ledger.subBalance_apply_ne _ _ _ _ h2]
  · unfold Ledger.getBalance
    rw [Ledger.addBalance_apply_ne _ _ _ _ hne]
    show ((e.m_s.subBalance txSender endowment) txSender).balance = _
    simp [Ledger.subBalance]

/-- A concrete Executive sitting exactly at the depth limit, with the
sender holding balance 500. -/
def wExecDepth : Executive :=
  Executive.construct
    (fun a => if a = 1 then { emptyAccount with balance := 500 } else emptyAccount)
    [] 1024

theorem Executive.create_depth_limit_transfer_then_fail_witness :
    c_depthLimit ≤ wExecDepth.m_depth ∧
    ((wExecDepth.create 1 200 1 50000 [7] 1).1 = true ∧
      (wExecDepth.create 1 200 1 50000 [7] 1).2.m_excepted =
        TransactionException.DepthExceeded ∧
      (wExecDepth.create 1 200 1 50000 [7] 1).2.m_s.getBalance
          (newContractAddress 1 (wExecDepth.m_s.getNonce 1)) =
        wExecDepth.m_s.getBalance (newContractAddress 1 (wExecDepth.m_s.getNonce 1)) + 200 ∧
      (wExecDepth.create 1 200 1 50000 [7] 1).2.m_s.getBalance 1 =
        wExecDepth.m_s.getBalance 1 - 200) :=
  ⟨by decide,
   Executive.create_depth_limit_transfer_then_fail wExecDepth 1 200 1 50000 [7] 1
     (by decide) (by decide)⟩

/-- C6: go invoked with any tracing callback yields the same ledger,
remaining gas, exception tag, output, logs and substate as go with any
other callback: the callback is observation-only and cannot alter the
execution outcome. -/
theorem Executive.go_onStep_observational (e : Executive) (vm : Interp) (o1 o2 : OnOpFunc) :
    (e.go vm o1).m_s = (e.go vm o2).m_s ∧
    (e.go vm o1).m_gas = (e.go vm o2).m_gas ∧
    (e.go vm o1).m_excepted = (e.go vm o2).m_excepted ∧
    (e.go vm o1).m_out = (e.go vm o2).m_out ∧
    (e.go vm o1).m_logs = (e.go vm o2).m_logs ∧
    (e.go vm o1).m_sub = (e.go vm o2).m_sub := by
  cases hext : e.m_ext with
  | none => simp [Executive.go, hext]
  | some ctx =>
    by_cases h1 : (vm e.m_gas ctx.code ctx.data e.m_s).exception = TransactionException.None
    · by_cases h2 : e.m_isCreation
      · by_cases h3 : (vm e.m_gas ctx.code ctx.data e.m_s).gasRemaining <
            c_createDataGas * (vm e.m_gas ctx.code ctx.data e.m_s).output.length
        · simp [Executive.go, hext, h1, h2, h3]
        · simp [Executive.go, hext, h1, h2, h3]
      · simp [Executive.go, hext, h1, h2]
    · simp [Executive.go, hext, h1]

theorem Ledger.addBalance_getBalance_ne (l : Ledger) (a v x : Nat) (h : x ≠ a) :
    (l.addBalance a v).getBalance x = l.getBalance x := by
  unfold Ledger.getBalance
  rw [Ledger.addBalance_apply_ne _ _ _ _ h]

theorem Ledger.subBalance_getBalance_ne (l : Ledger) (a v x : Nat) (h : x ≠ a) :
    (l.subBalance a v).getBalance x = l.getBalance x := by
  unfold Ledger.getBalance
  rw [Ledger.subBalance_apply_ne _ _ _ _ h]

theorem Ledger.incNonce_getBalance (l : Ledger) (a x : Nat) :
    (l.incNonce a).getBalance x = l.getBalance x := by
  unfold Ledger.getBalance
  rw [Ledger.incNonce_balance]

/-- C5: a message-call transaction whose receiver has no code is a pure
value transfer: execute() reports done (no interpreter run, no go()), and
after finalize the gas used is exactly the intrinsic gas, the sender paid
exactly the intrinsic fee plus the transferred value, the receiver gained
exactly the value, and no logs were produced. -/
theorem Executive.call_no_code_pure_transfer
    (s0 : Ledger) (lh : List Nat) (t : Transaction) (beneficiary : Nat)
    (hc : t.isCreation = false)
    (hgas : intrinsicGas t ≤ t.gas)
    (hnonce : Ledger.getNonce s0 t.sender = t.nonce)
    (hbal : t.gas * t.gasPrice + t.value ≤ Ledger.getBalance s0 t.sender)
    (hcode : Ledger.getCode s0 t.receiveAddress = [])
    (hsr : t.sender ≠ t.receiveAddress)
    (hbs : beneficiary ≠ t.sender)
    (hbr : beneficiary ≠ t.receiveAddress) :
    ((Executive.construct s0 lh 0).initializeTx t).execute.1 = true ∧
    (((Executive.construct s0 lh 0).initializeTx t).execute.2.finalize beneficiary).gasUsed
        = intrinsicGas t ∧
    Ledger.getBalance
        (((Executive.construct s0 lh 0).initializeTx t).execute.2.finalize beneficiary).m_s
        t.sender
      = Ledger.getBalance s0 t.sender - intrinsicGas t * t.gasPrice - t.value ∧
    Ledger.getBalance
        (((Executive.construct s0 lh 0).initializeTx t).execute.2.finalize beneficiary).m_s
        t.receiveAddress
      = Ledger.getBalance s0 t.receiveAddress + t.value ∧
    (((Executive.construct s0 lh 0).initializeTx t).execute.2.finalize beneficiary).logs = [] := by
  have h1 : ¬ t.gas < intrinsicGas t := not_lt.mpr hgas
  have h2 : ¬ (Ledger.getNonce s0 t.sender ≠ t.nonce) := by simp [hnonce]
  have h3 : ¬ (Ledger.getBalance s0 t.sender < t.gas * t.gasPrice + t.value) := not_lt.mpr hbal
  have hcode2 : Ledger.getCode
      ((s0.incNonce t.sender).subBalance t.sender (t.gas * t.gasPrice)) t.receiveAddress
      = [] := by
    unfold Ledger.getCode
    rw [Ledger.subBalance_code, Ledger.incNonce_code]
    exact hcode
  have hinit : (Executive.construct s0 lh 0).initializeTx t =
      { Executive.construct s0 lh 0 with
        m_t := t, m_s := s0.incNonce t.sender,
        m_gasRequired := intrinsicGas t,
        m_gasCost := t.gas * t.gasPrice,
        m_totalCost := t.gas * t.gasPrice + t.value } := by
    simp only [Executive.initializeTx, Executive.construct]
    rw [if_neg h1, if_neg h2, if_neg h3]
  have hexec : ((Executive.construct s0 lh 0).initializeTx t).execute =
      (true,
       { Executive.construct s0 lh 0 with
         m_t := t,
         m_s := (((s0.incNonce t.sender).subBalance t.sender (t.gas * t.gasPrice)).subBalance
                    t.sender t.value).addBalance t.receiveAddress t.value,
         m_gasRequired := intrinsicGas t,
         m_gasCost := t.gas * t.gasPrice,
         m_totalCost := t.gas * t.gasPrice + t.value,
         m_isCreation := false,
         m_ext := none,
         m_gas := t.gas - intrinsicGas t }) := by
    rw [hinit]
    simp [Executive.execute, Executive.call, Executive.construct, hc, hcode2]
  have hfin : ((Executive.construct s0 lh 0).initializeTx t).execute.2.finalize beneficiary =
      { Executive.construct s0 lh 0 with
        m_t := t,
        m_s := (((((s0.incNonce t.sender).subBalance t.sender
                      (t.gas * t.gasPrice)).subBalance t.sender t.value).addBalance
                    t.receiveAddress t.value).addBalance t.sender
                  ((t.gas - intrinsicGas t) * t.gasPrice)).addBalance beneficiary
                  ((t.gas - (t.gas - intrinsicGas t)) * t.gasPrice),
        m_gasRequired := intrinsicGas t,
        m_gasCost := t.gas * t.gasPrice,
        m_totalCost := t.gas * t.gasPrice + t.value,
        m_isCreation := false,
        m_ext := none,
        m_gas := t.gas - intrinsicGas t,
        m_logs := [] } := by
    rw [hexec]
    simp [Executive.finalize, Executive.construct]
  have hIP : intrinsicGas t * t.gasPrice ≤ t.gas * t.gasPrice :=
    Nat.mul_le_mul_right _ hgas
  have hSM : (t.gas - intrinsicGas t) * t.gasPrice
      = t.gas * t.gasPrice - intrinsicGas t * t.gasPrice := Nat.sub_mul _ _ _
  refine ⟨by rw [hexec], ?_, ?_, ?_, ?_⟩
  · simp only [hfin, Executive.gasUsed]
    omega
  · simp only [hfin]
    rw [Ledger.addBalance_getBalance_ne _ _ _ _ (Ne.symm hbs),
        Ledger.addBalance_getBalance_same,
        Ledger.addBalance_getBalance_ne _ _ _ _ hsr,
        Ledger.subBalance_getBalance_same,
        Ledger.subBalance_getBalance_same,
        Ledger.incNonce_getBalance]
    omega
  · simp only [hfin]
    rw [Ledger.addBalance_getBalance_ne _ _ _ _ (Ne.symm hbr),
        Ledger.addBalance_getBalance_ne _ _ _ _ (Ne.symm hsr),
        Ledger.addBalance_getBalance_same,
        Ledger.subBalance_getBalance_ne _ _ _ _ (Ne.symm hsr),
        Ledger.subBalance_getBalance_ne _ _ _ _ (Ne.symm hsr),
        Ledger.incNonce_getBalance]
  · simp only [hfin, Executive.logs]

/-- A ledger where address 1 holds balance 50000 and nothing else exists. -/
def wLedgerRich : Ledger :=
  fun a => if a = 1 then { emptyAccount with balance := 50000 } else emptyAccount

/-- A concrete plain value-transfer transaction to a code-less receiver. -/
def wTxTransfer : Transaction :=
  { sender := 1, receiveAddress := 2, isCreation := false, nonce := 0,
    gas := 21000, gasPrice := 1, value := 10, data := [] }

theorem Executive.call_no_code_pure_transfer_witness :
    Ledger.getCode wLedgerRich wTxTransfer.receiveAddress = [] ∧
    wTxTransfer.gas * wTxTransfer.gasPrice + wTxTransfer.value
        ≤ Ledger.getBalance wLedgerRich wTxTransfer.sender ∧
    (((Executive.construct wLedgerRich [] 0).initializeTx wTxTransfer).execute.1 = true ∧
      (((Executive.construct wLedgerRich [] 0).initializeTx wTxTransfer).execute.2.finalize
          3).gasUsed = intrinsicGas wTxTransfer ∧
      Ledger.getBalance
          (((Executive.construct wLedgerRich [] 0).initializeTx wTxTransfer).execute.2.finalize
            3).m_s wTxTransfer.sender
        = Ledger.getBalance wLedgerRich wTxTransfer.sender
            - intrinsicGas wTxTransfer * wTxTransfer.gasPrice - wTxTransfer.value ∧
      Ledger.getBalance
          (((Executive.construct wLedgerRich [] 0).initializeTx wTxTransfer).execute.2.finalize
            3).m_s wTxTransfer.receiveAddress
        = Ledger.getBalance wLedgerRich wTxTransfer.receiveAddress + wTxTransfer.value ∧
      (((Executive.construct wLedgerRich [] 0).initializeTx wTxTransfer).execute.2.finalize
          3).logs = []) :=
  ⟨by decide, by decide,
   Executive.call_no_code_pure_transfer wLedgerRich [] wTxTransfer 3
     (by decide) (by decide) (by decide) (by decide) (by decide)
     (by decide) (by decide) (by decide)⟩

/-- C1: for a transaction whose interpreter execution raises an exception,
the ledger after finalize equals the ledger before execute with exactly the
gas-fee transfer applied (sender debited the full gas fee, beneficiary
credited it); the pre-execute ledger itself is the initial ledger with only
the sender nonce incremented; the substate is discarded and logs() is
empty. -/
theorem Executive.exception_rollback
    (s0 : Ledger) (lh : List Nat) (t : Transaction) (beneficiary : Nat)
    (vm : Interp) (onOp : OnOpFunc)
    (hgas : intrinsicGas t ≤ t.gas)
    (hnonce : Ledger.getNonce s0 t.sender = t.nonce)
    (hbal : t.gas * t.gasPrice + t.value ≤ Ledger.getBalance s0 t.sender)
    (hneed : ((Executive.construct s0 lh 0).initializeTx t).execute.1 = false)
    (hexc : ∀ ctx, ((Executive.construct s0 lh 0).initializeTx t).execute.2.m_ext = some ctx →
      (vm ((Executive.construct s0 lh 0).initializeTx t).execute.2.m_gas ctx.code ctx.data
          ((Executive.construct s0 lh 0).initializeTx t).execute.2.m_s).exception
        ≠ TransactionException.None) :
    ((((Executive.construct s0 lh 0).initializeTx t).execute.2.go vm onOp).finalize
        beneficiary).logs = [] ∧
    ((((Executive.construct s0 lh 0).initializeTx t).execute.2.go vm onOp).finalize
        beneficiary).m_s
      = ((s0.incNonce t.sender).subBalance t.sender (t.gas * t.gasPrice)).addBalance
          beneficiary (t.gas * t.gasPrice) ∧
    ((Executive.construct s0 lh 0).initializeTx t).m_s = s0.incNonce t.sender := by
  have h1 : ¬ t.gas < intrinsicGas t := not_lt.mpr hgas
  have h2 : ¬ (Ledger.getNonce s0 t.sender ≠ t.nonce) := by simp [hnonce]
  have h3 : ¬ (Ledger.getBalance s0 t.sender < t.gas * t.gasPrice + t.value) := not_lt.mpr hbal
  have hinit : (Executive.construct s0 lh 0).initializeTx t =
      { Executive.construct s0 lh 0 with
        m_t := t, m_s := s0.incNonce t.sender,
        m_gasRequired := intrinsicGas t,
        m_gasCost := t.gas * t.gasPrice,
        m_totalCost := t.gas * t.gasPrice + t.value } := by
    simp only [Executive.initializeTx, Executive.construct]
    rw [if_neg h1, if_neg h2, if_neg h3]
  refine ?_
  cases hcB : t.isCreation with
  | false =>
    by_cases hcd : Ledger.getCode
        ((s0.incNonce t.sender).subBalance t.sender (t.gas * t.gasPrice)) t.receiveAddress = []
    · exfalso
      rw [hinit] at hneed
      simp [Executive.execute, Executive.call, Executive.construct, hcB, hcd] at hneed
    · have hexec2 : ((Executive.construct s0 lh 0).initializeTx t).execute =
          (false,
           { Executive.construct s0 lh 0 with
             m_t := t,
             m_s := (((s0.incNonce t.sender).subBalance t.sender
                        (t.gas * t.gasPrice)).subBalance t.sender t.value).addBalance
                      t.receiveAddress t.value,
             m_gasRequired := intrinsicGas t,
             m_gasCost := t.gas * t.gasPrice,
             m_totalCost := t.gas * t.gasPrice + t.value,
             m_isCreation := false,
             m_gas := t.gas - intrinsicGas t,
             m_ext := some
               { myAddress := t.receiveAddress, caller := t.sender, origin := t.sender,
                 value := t.value, gasPrice := t.gasPrice, data := t.data,
                 code := Ledger.getCode ((s0.incNonce t.sender).subBalance t.sender
                           (t.gas * t.gasPrice)) t.receiveAddress,
                 origLedger := (s0.incNonce t.sender).subBalance t.sender
                           (t.gas * t.gasPrice) } }) := by
        rw [hinit]
        simp [Executive.execute, Executive.call, Executive.construct, hcB, hcd]
      have hr : (vm (t.gas - intrinsicGas t)
          (Ledger.getCode ((s0.incNonce t.sender).subBalance t.sender
             (t.gas * t.gasPrice)) t.receiveAddress)
          t.data
          ((((s0.incNonce t.sender).subBalance t.sender (t.gas * t.gasPrice)).subBalance
              t.sender t.value).addBalance t.receiveAddress t.value)).exception
          ≠ TransactionException.None := by
        have h := hexc _ (by rw [hexec2])
        rw [hexec2] at h
        simpa using h
      refine ⟨?_, ?_, by rw [hinit]⟩
      · simp [hexec2, Executive.go, Executive.finalize, Executive.logs, hr]
      · simp [hexec2, Executive.go, Executive.finalize, hr, Ledger.addBalance_zero]
  | true =>
    by_cases hcd : t.data = []
    · exfalso
      rw [hinit] at hneed
      simp [Executive.execute, Executive.create, Executive.construct, c_depthLimit,
        hcB, hcd] at hneed
    · have hexec2 : ((Executive.construct s0 lh 0).initializeTx t).execute =
          (false,
           { Executive.construct s0 lh 0 with
             m_t := t,
             m_s := (((s0.incNonce t.sender).subBalance t.sender
                        (t.gas * t.gasPrice)).subBalance t.sender t.value).addBalance
                      (newContractAddress t.sender
                        (Ledger.getNonce ((s0.incNonce t.sender).subBalance t.sender
                          (t.gas * t.gasPrice)) t.sender)) t.value,
             m_gasRequired := intrinsicGas t,
             m_gasCost := t.gas * t.gasPrice,
             m_totalCost := t.gas * t.gasPrice + t.value,
             m_isCreation := true,
             m_newAddress := newContractAddress t.sender
                        (Ledger.getNonce ((s0.incNonce t.sender).subBalance t.sender
                          (t.gas * t.gasPrice)) t.sender),
             m_gas := t.gas - intrinsicGas t,
             m_ext := some
               { myAddress := newContractAddress t.sender
                        (Ledger.getNonce ((s0.incNonce t.sender).subBalance t.sender
                          (t.gas * t.gasPrice)) t.sender),
                 caller := t.sender, origin := t.sender,
                 value := t.value, gasPrice := t.gasPrice, data := [],
                 code := t.data,
                 origLedger := (s0.incNonce t.sender).subBalance t.sender
                           (t.gas * t.gasPrice) } }) := by
        rw [hinit]
        simp [Executive.execute, Executive.create, Executive.construct, c_depthLimit,
          hcB, hcd]
      have hr : (vm (t.gas - intrinsicGas t) t.data []
          ((((s0.incNonce t.sender).subBalance t.sender (t.gas * t.gasPrice)).subBalance
              t.sender t.value).addBalance
            (newContractAddress t.sender
              (Ledger.getNonce ((s0.incNonce t.sender).subBalance t.sender
                (t.gas * t.gasPrice)) t.sender)) t.value)).exception
          ≠ TransactionException.None := by
        have h := hexc _ (by rw [hexec2])
        rw [hexec2] at h
        simpa using h
      refine ⟨?_, ?_, by rw [hinit]⟩
      · simp [hexec2, Executive.go, Executive.finalize, Executive.logs, hr]
      · simp [hexec2, Executive.go, Executive.finalize, hr, Ledger.addBalance_zero]

/-- A ledger where address 1 holds balance 50000 and address 2 has code. -/
def wLedgerCode : Ledger :=
  fun a =>
    if a = 1 then { emptyAccount with balance := 50000 }
    else if a = 2 then { emptyAccount with code := [1, 2] }
    else emptyAccount

/-- An interpreter that always raises OutOfGas. -/
def wVMFail : Interp :=
  fun _ _ _ l =>
    { gasRemaining := 0, output := [], exception := TransactionException.OutOfGas,
      sub := { suicides := [], logs := [], refunds := 0 }, ledger := l, steps := [] }

/-- An identity tracing callback. -/
def wOnOp : OnOpFunc := fun n => n

theorem Executive.exception_rollback_witness :
    ((Executive.construct wLedgerCode [] 0).initializeTx wTxTransfer).execute.1 = false ∧
    (((((Executive.construct wLedgerCode [] 0).initializeTx wTxTransfer).execute.2.go wVMFail
          wOnOp).finalize 3).logs = [] ∧
      ((((Executive.construct wLedgerCode [] 0).initializeTx wTxTransfer).execute.2.go wVMFail
          wOnOp).finalize 3).m_s
        = ((wLedgerCode.incNonce wTxTransfer.sender).subBalance wTxTransfer.sender
            (wTxTransfer.gas * wTxTransfer.gasPrice)).addBalance 3
            (wTxTransfer.gas * wTxTransfer.gasPrice) ∧
      ((Executive.construct wLedgerCode [] 0).initializeTx wTxTransfer).m_s
        = wLedgerCode.incNonce wTxTransfer.sender) :=
  ⟨by decide,
   Executive.exception_rollback wLedgerCode [] wTxTransfer 3 wVMFail wOnOp
     (by decide) (by decide) (by decide) (by decide)
     (fun ctx h => by simp [wVMFail])⟩
